import Mathlib

/-!
Verification development for the input-simulator core (src/src/simulator.rs).

The Rust source is shallowly embedded as pure Lean functions.  Effects are
made explicit:

* device writes, sleeps — collected in a trace (`Action` list);
* the shared `running` flag — an oracle `runAt : Nat → Bool` giving the
  result of the i-th lock-and-read of the flag;
* the shared `interval_ms` cell — an oracle `intervalAt : Nat → Nat` giving
  the result of the j-th read;
* fallible raw device writes — an oracle `dev : InputEvent → Nat → Option String`
  giving, for an event and an attempt index, `none` on success or
  `some msg` (the Debug rendering of the io error) on failure;
* loop non-termination — a `fuel` bound on outer-loop iterations; running
  out of fuel is reported as `RunExit.spin` (the real loop would continue).

Machine integers (`u32`, `u64`, `usize`) never get close to overflow in the
source (retry counters, millisecond delays), so they are modelled as `Nat`.

The crate modules `constants.rs`, `error.rs` and `utils/key_utils.rs` are not
part of the given sources; the pieces of them this development needs are
modelled from the spec and marked as such in their doc comments.
-/

namespace Simulator

/-- Decidable equality for `Except` results, needed to evaluate concrete
runs of the embedded operations. -/
instance {E A : Type} [DecidableEq E] [DecidableEq A] : DecidableEq (Except E A) := fun a b =>
  match a, b with
  | Except.ok x, Except.ok y =>
    match decEq x y with
    | isTrue h => isTrue (h ▸ rfl)
    | isFalse h => isFalse fun hc => h (Except.ok.inj hc)
  | Except.error x, Except.error y =>
    match decEq x y with
    | isTrue h => isTrue (h ▸ rfl)
    | isFalse h => isFalse fun hc => h (Except.error.inj hc)
  | Except.ok _, Except.error _ => isFalse fun hc => Except.noConfusion hc
  | Except.error _, Except.ok _ => isFalse fun hc => Except.noConfusion hc

/-- Embedding of `evdev_rs::enums::EventCode` as used by the source:
key events (`EV_KEY`), synchronization events (`EV_SYN`) and relative-motion
events (`EV_REL`), each carrying the numeric code of the concrete enum
member. -/
inductive EventCode where
  | EV_KEY (code : Nat)
  | EV_SYN (code : Nat)
  | EV_REL (code : Nat)
  deriving DecidableEq

/-- Numeric code of `EV_KEY::KEY_NUMERIC_0` (0x200 in evdev). -/
def KEY_NUMERIC_0 : Nat := 512

/-- Numeric code of `EV_KEY::BTN_LEFT` (0x110). -/
def BTN_LEFT : Nat := 272

/-- Numeric code of `EV_KEY::BTN_RIGHT` (0x111). -/
def BTN_RIGHT : Nat := 273

/-- Numeric code of `EV_KEY::BTN_MIDDLE` (0x112). -/
def BTN_MIDDLE : Nat := 274

/-- Numeric code of `EV_REL::REL_X`. -/
def REL_X : Nat := 0

/-- Numeric code of `EV_REL::REL_Y`. -/
def REL_Y : Nat := 1

/-- Numeric code of `EV_SYN::SYN_REPORT`. -/
def SYN_REPORT : Nat := 0

/-- Embedding of `evdev_rs::TimeVal`. -/
structure TimeVal where
  sec : Int
  usec : Int
  deriving DecidableEq

/-- Embedding of `evdev_rs::InputEvent`: a timestamped event code with a
value (1 = key down, 0 = key up for `EV_KEY`; 0 for `SYN_REPORT`). -/
structure InputEvent where
  time : TimeVal
  code : EventCode
  value : Int
  deriving DecidableEq

/-- The synchronization event `InputEvent::new(timeval, EV_SYN(SYN_REPORT), 0)`
written by `write_key_events` and by the initial sync in `simulate_keys`. -/
def syncEvent (tv : TimeVal) : InputEvent :=
  ⟨tv, EventCode.EV_SYN SYN_REPORT, 0⟩

/-- Modelled from the spec: `error.rs` is not among the given sources.  The
spec's error taxonomy (§7) has exactly the two kinds `Key-Simulation` and
`Device-Initialization`, each carrying a message, so the crate error type is
modelled with those two variants. -/
inductive SimulatorError where
  | KeySimulation (msg : String)
  | DeviceInitialization (msg : String)
  deriving DecidableEq

/-- Debug rendering of a `SimulatorError`, used where the source formats an
error with `{:?}`. -/
def fmtSimError : SimulatorError → String
  | SimulatorError.KeySimulation m => "KeySimulation(" ++ m ++ ")"
  | SimulatorError.DeviceInitialization m => "DeviceInitialization(" ++ m ++ ")"

/-- Debug rendering of the error slot of an exhausted retry (`None` is
unreachable for a positive attempt count). -/
def fmtRetryError : Option SimulatorError → String
  | some e => fmtSimError e
  | none => "None"

/-- Opaque handle standing for `UInputDevice`. -/
abbrev Device := Nat

/-- Modelled from the spec: `constants.rs` is not among the given sources.
`MAX_RETRIES` is the general-purpose per-write attempt count (§4.3); the
spec fixes no numeric value, 3 is a representative positive value (no claim
depends on it). -/
def MAX_RETRIES : Nat := 3

/-- Modelled from the spec: `constants.rs` is not among the given sources.
`RETRY_DELAY_MS` is the general-purpose delay between write attempts; the
spec fixes no numeric value, 50 is a representative value (no claim depends
on it). -/
def RETRY_DELAY_MS : Nat := 50

/-- Modelled from the spec: `constants.rs` is not among the given sources.
Scenario 5 of the spec fixes the device-init attempt count at 3 ("fails on
all attempts up to max-retries = 3 → … error annotated with 3"). -/
def MAX_DEVICE_INIT_RETRIES : Nat := 3

/-- Modelled from the spec: `constants.rs` is not among the given sources.
Delay between device-init attempts; the spec fixes no numeric value, 500 is
a representative value (no claim depends on it). -/
def DEVICE_INIT_RETRY_DELAY_MS : Nat := 500

/-- Modelled from the spec: `constants.rs` is not among the given sources.
The fixed settle delay after device creation in Hold mode; the spec fixes
no numeric value, 2000 is a representative value (no claim depends on it). -/
def SIMULATION_HOLD_DELAY_MS : Nat := 2000

/-- Embedding of the loop body of `retry` (simulator.rs:25-48), structured
as a countdown.  `attempt` is the current 0-based attempt index,
`remaining` the number of attempts still allowed (`max_retries - attempt`),
and the `Option E` argument the current `last_error`.  Returns the result
together with the list of arguments passed to `log_fn` and the list of
sleep durations performed.  `Except.error none` corresponds to the
`last_error.unwrap()` panic, reachable only for `max_retries = 0`. -/
def retryAux {E T : Type} (op : Nat → Except E T) (delayMs : Nat) :
    Nat → Nat → Option E → Except (Option E) T × List Nat × List Nat
  | _, 0, lastError => (Except.error lastError, [], [])
  | attempt, remaining + 1, _ =>
    match op attempt with
    | Except.ok r => (Except.ok r, [], [])
    | Except.error e =>
      let rest := retryAux op delayMs (attempt + 1) remaining (some e)
      if remaining = 0 then rest
      else (rest.1, (attempt + 1) :: rest.2.1, delayMs :: rest.2.2)

/-- Embedding of `retry` (simulator.rs:25-48).  `op i` is the result of the
i-th invocation of the fallible operation.  Returns the overall result, the
observer (`log_fn`) call arguments in order, and the sleep durations in
order. -/
def retry {E T : Type} (op : Nat → Except E T) (maxRetries delayMs : Nat) :
    Except (Option E) T × List Nat × List Nat :=
  retryAux op delayMs 0 maxRetries none

/-- Embedding of `write_event_with_retry` (simulator.rs:50-64).
`attempts i` is the raw `device.write_event` result of the i-th attempt
(`none` = success, `some msg` = failure with Debug rendering `msg`); a
failure is mapped to `SimulatorError::KeySimulation("Failed event: …")`
exactly as in the source. -/
def write_event_with_retry (attempts : Nat → Option String) :
    Except (Option SimulatorError) Unit × List Nat × List Nat :=
  retry (fun n =>
    match attempts n with
    | none => Except.ok ()
    | some msg =>
      Except.error (SimulatorError.KeySimulation ("Failed event: " ++ msg)))
    MAX_RETRIES RETRY_DELAY_MS

/-- Embedding of `write_key_events` (simulator.rs:66-81): writes one key
event per code in `keys` (given value and timestamp, in input order), each
via `write_event_with_retry`, then always one synchronization event; the
first failed write aborts the batch.  The returned list holds the events
actually delivered to the device (a failed-after-retries write delivers
nothing); retry-internal sleeps/logs stay inside `write_event_with_retry`. -/
def write_key_events (dev : InputEvent → Nat → Option String)
    (keys : List EventCode) (value : Int) (timeval : TimeVal) :
    List InputEvent × Except (Option SimulatorError) Unit :=
  match keys with
  | [] =>
    match (write_event_with_retry (dev (syncEvent timeval))).1 with
    | Except.ok _ => ([syncEvent timeval], Except.ok ())
    | Except.error e => ([], Except.error e)
  | key :: rest =>
    let ev : InputEvent := ⟨timeval, key, value⟩
    match (write_event_with_retry (dev ev)).1 with
    | Except.error e => ([], Except.error e)
    | Except.ok _ =>
      let r := write_key_events dev rest value timeval
      (ev :: r.1, r.2)

/-- Outcome of `setup_device`: a live device handle, a returned error, or an
aborted thread (a Rust `panic!` from one of the `.unwrap()` calls). -/
inductive DevOutcome where
  | ok (device : Device)
  | err (e : SimulatorError)
  | aborted
  deriving DecidableEq

/-- The baseline capabilities always enabled by `setup_device`
(simulator.rs:92-98), in source order. -/
def baseline_caps : List EventCode :=
  [EventCode.EV_KEY BTN_LEFT, EventCode.EV_KEY BTN_RIGHT,
   EventCode.EV_KEY BTN_MIDDLE, EventCode.EV_REL REL_X, EventCode.EV_REL REL_Y]

/-- Embedding of `setup_device` (simulator.rs:84-107).  Oracles:
`newDevice` is the `UninitDevice::new()` result (`none` makes the
`.unwrap()` panic), `enableRes c` tells whether `device.enable(c)` succeeds
(a failure makes the corresponding `.unwrap()` panic), and `createRes n` is
the result of the n-th call of `UInputDevice::create_from_device` (the
source makes exactly one call, with index 0).

Modelled from the spec: `error.rs` (the `From` conversion applied by the
`?` on `create_from_device`) is not among the given sources; per spec §4.2
("any … finalization failure surfaces as a Device-Initialization error")
the converted error is modelled as `SimulatorError.DeviceInitialization`. -/
def setup_device (newDevice : Option Unit) (enableRes : EventCode → Bool)
    (createRes : Nat → Except String Device)
    (selected_keys : List EventCode) : DevOutcome :=
  match newDevice with
  | none => DevOutcome.aborted
  | some _ =>
    if (baseline_caps ++ selected_keys).all enableRes then
      match createRes 0 with
      | Except.ok d => DevOutcome.ok d
      | Except.error e => DevOutcome.err (SimulatorError.DeviceInitialization e)
    else DevOutcome.aborted

/-- Discriminator: is the outcome a returned Device-Initialization error? -/
def isDeviceInitError : DevOutcome → Bool
  | DevOutcome.err (SimulatorError.DeviceInitialization _) => true
  | _ => false

/-- Embedding of `setup_device_with_retry` (simulator.rs:109-128):
`retry` around device creation with the device-init constants, mapping an
exhausted retry to a `DeviceInitialization` error whose message is
"Failed after " followed by the attempt-count constant, " retries: " and
the Debug rendering of the last error, as formatted by the source.
`attempts i` is the result of the i-th `setup_device` call. -/
def setup_device_with_retry (attempts : Nat → Except SimulatorError Device) :
    Except SimulatorError Device × List Nat × List Nat :=
  let r := retry attempts MAX_DEVICE_INIT_RETRIES DEVICE_INIT_RETRY_DELAY_MS
  match r.1 with
  | Except.ok d => (Except.ok d, r.2.1, r.2.2)
  | Except.error e =>
    (Except.error (SimulatorError.DeviceInitialization
      ("Failed after " ++ toString MAX_DEVICE_INIT_RETRIES ++ " retries: "
        ++ fmtRetryError e)),
     r.2.1, r.2.2)

/-- Embedding of `config::KeyBehaviorMode`. -/
inductive KeyBehaviorMode where
  | Click
  | Hold
  deriving DecidableEq

/-- Embedding of `config::HoldBehaviorMode`. -/
inductive HoldBehaviorMode where
  | Continuous
  | Cycle
  deriving DecidableEq

/-- Embedding of `config::ModifierBehaviorMode`. -/
inductive ModifierBehaviorMode where
  | Click
  | Hold
  deriving DecidableEq

/-- Embedding of `initialize_simulation_keys` (simulator.rs:131-160); the
Lean name drops the prefix of the first word.  The external key-mapping
collaborators `raw_key_to_device_keycode` and `keycode_to_evkey`
(utils/key_utils.rs, not among the given sources; pure lookups per spec §1)
are passed as function arguments.  `selected_keys`/`key_behavior` carry the
previous contents of the two out-parameters; the function clears the former
and overwrites the latter, so the result ignores both. -/
def init_simulation_keys (raw_key_to_device_keycode : String → Option Nat)
    (keycode_to_evkey : Nat → Option Nat)
    (app_selected_keys : List String) (app_key_behavior : KeyBehaviorMode)
    (selected_keys : List EventCode) (key_behavior : KeyBehaviorMode) :
    List EventCode × KeyBehaviorMode :=
  let selected_keys : List EventCode := []
  let key_behavior := app_key_behavior
  let selected_keys := app_selected_keys.foldl (fun acc raw =>
    match raw_key_to_device_keycode raw with
    | some device_key =>
      match keycode_to_evkey device_key with
      | some ev_key => acc ++ [EventCode.EV_KEY ev_key]
      | none => acc
    | none => acc) selected_keys
  (selected_keys, key_behavior)

/-- One observable step of the simulation loop: an event delivered to the
device, or a `thread::sleep` of the given milliseconds. -/
inductive Action where
  | ev (e : InputEvent)
  | sleep (ms : Nat)
  deriving DecidableEq

/-- Exit status of the inner `for` loop of Cycle mode: ran through all keys,
broke out on a false `running` flag, or aborted on a write error. -/
inductive InnerExit where
  | done
  | brk
  | err (e : Option SimulatorError)
  deriving DecidableEq

/-- Exit status of a (fuel-bounded) simulation run: returned `Ok(())`, ran
out of fuel with the flag still true (`spin`), or returned a write error. -/
inductive RunExit where
  | ok
  | spin
  | err (e : Option SimulatorError)
  deriving DecidableEq

/-- Boolean discriminator for an error exit. -/
def RunExit.isErr : RunExit → Bool
  | RunExit.err _ => true
  | _ => false

/-- Boolean discriminator for an error exit of the inner loop. -/
def InnerExit.isErr : InnerExit → Bool
  | InnerExit.err _ => true
  | _ => false

/-- A device oracle on which every raw write succeeds. -/
def devOK : InputEvent → Nat → Option String := fun _ _ => none

/-- The fixed confirmation key pressed by Click mode (simulator.rs:230). -/
def CONFIRM_KEY : EventCode := EventCode.EV_KEY KEY_NUMERIC_0

/-- The body of one Click-mode cycle (simulator.rs:230-241): press the
confirmation key, release all snapshot keys, sleep 1000 ms; the same again;
then sleep 5000 ms.  A failed batch aborts the body with its error. -/
def clickBody (dev : InputEvent → Nat → Option String)
    (keys : List EventCode) (tv : TimeVal) :
    List Action × Except (Option SimulatorError) Unit :=
  let b1 := write_key_events dev [CONFIRM_KEY] 1 tv
  match b1.2 with
  | Except.error e => (b1.1.map Action.ev, Except.error e)
  | Except.ok _ =>
    let b2 := write_key_events dev keys 0 tv
    match b2.2 with
    | Except.error e => (b1.1.map Action.ev ++ b2.1.map Action.ev, Except.error e)
    | Except.ok _ =>
      let b3 := write_key_events dev [CONFIRM_KEY] 1 tv
      match b3.2 with
      | Except.error e =>
        (b1.1.map Action.ev ++ b2.1.map Action.ev
          ++ Action.sleep 1000 :: b3.1.map Action.ev, Except.error e)
      | Except.ok _ =>
        let b4 := write_key_events dev keys 0 tv
        match b4.2 with
        | Except.error e =>
          (b1.1.map Action.ev ++ b2.1.map Action.ev
            ++ Action.sleep 1000 :: (b3.1.map Action.ev ++ b4.1.map Action.ev),
           Except.error e)
        | Except.ok _ =>
          (b1.1.map Action.ev ++ b2.1.map Action.ev
            ++ Action.sleep 1000 :: (b3.1.map Action.ev ++ b4.1.map Action.ev
              ++ [Action.sleep 1000, Action.sleep 5000]),
           Except.ok ())

/-- Embedding of the Click-mode `while` loop (simulator.rs:229-242).
`i` is the index of the next read of the `running` flag; one read per
cycle, at the top. -/
def clickLoop (dev : InputEvent → Nat → Option String) (runAt : Nat → Bool)
    (keys : List EventCode) (tv : TimeVal) :
    Nat → Nat → List Action × RunExit
  | 0, _ => ([], RunExit.spin)
  | fuel + 1, i =>
    if runAt i then
      let b := clickBody dev keys tv
      match b.2 with
      | Except.error e => (b.1, RunExit.err e)
      | Except.ok _ =>
        let rest := clickLoop dev runAt keys tv fuel (i + 1)
        (b.1 ++ rest.1, rest.2)
    else ([], RunExit.ok)

/-- Embedding of the Continuous-hold heartbeat loop (simulator.rs:201-203):
while the flag reads true, perform a zero-key batch (one sync event). -/
def continuousLoop (dev : InputEvent → Nat → Option String)
    (runAt : Nat → Bool) (tv : TimeVal) :
    Nat → Nat → List Action × RunExit
  | 0, _ => ([], RunExit.spin)
  | fuel + 1, i =>
    if runAt i then
      let hb := write_key_events dev [] 0 tv
      match hb.2 with
      | Except.error e => (hb.1.map Action.ev, RunExit.err e)
      | Except.ok _ =>
        let rest := continuousLoop dev runAt tv fuel (i + 1)
        (hb.1.map Action.ev ++ rest.1, rest.2)
    else ([], RunExit.ok)

/-- Embedding of the Continuous-hold arm (simulator.rs:197-207): press every
snapshot key, heartbeat while running, then release every snapshot key.
The release batch runs only when the loop exits normally (the source
reaches it only by falling out of the `while`; an error propagates by `?`). -/
def continuousMode (dev : InputEvent → Nat → Option String)
    (runAt : Nat → Bool) (keys : List EventCode) (tv : TimeVal)
    (fuel : Nat) : List Action × RunExit :=
  let press := write_key_events dev keys 1 tv
  match press.2 with
  | Except.error e => (press.1.map Action.ev, RunExit.err e)
  | Except.ok _ =>
    let loop := continuousLoop dev runAt tv fuel 0
    match loop.2 with
    | RunExit.ok =>
      let rel := write_key_events dev keys 0 tv
      match rel.2 with
      | Except.error e =>
        (press.1.map Action.ev ++ loop.1 ++ rel.1.map Action.ev, RunExit.err e)
      | Except.ok _ =>
        (press.1.map Action.ev ++ loop.1 ++ rel.1.map Action.ev, RunExit.ok)
    | x => (press.1.map Action.ev ++ loop.1, x)

/-- Embedding of the inner `for` loop of Cycle mode (simulator.rs:216-223):
per key, check the flag (break if false), press the key, sleep one
interval, release the key.  Returns the trace, the next flag-read index,
and the exit kind. -/
def cycleInner (dev : InputEvent → Nat → Option String) (runAt : Nat → Bool)
    (tv : TimeVal) (interval : Nat) :
    List EventCode → Nat → List Action × Nat × InnerExit
  | [], i => ([], i, InnerExit.done)
  | key :: rest, i =>
    if runAt i then
      let press := write_key_events dev [key] 1 tv
      match press.2 with
      | Except.error e => (press.1.map Action.ev, i + 1, InnerExit.err e)
      | Except.ok _ =>
        let rel := write_key_events dev [key] 0 tv
        match rel.2 with
        | Except.error e =>
          (press.1.map Action.ev ++ Action.sleep interval :: rel.1.map Action.ev,
           i + 1, InnerExit.err e)
        | Except.ok _ =>
          let r := cycleInner dev runAt tv interval rest (i + 1)
          (press.1.map Action.ev
            ++ Action.sleep interval :: (rel.1.map Action.ev ++ r.1),
           r.2.1, r.2.2)
    else ([], i + 1, InnerExit.brk)

/-- Embedding of the Cycle-hold outer `while` loop (simulator.rs:210-224):
while the flag reads true, read the interval fresh; with an empty snapshot
sleep one interval, otherwise run the inner per-key loop.  `i` indexes
reads of `running`, `j` reads of `interval_ms`. -/
def cycleOuter (dev : InputEvent → Nat → Option String) (runAt : Nat → Bool)
    (intervalAt : Nat → Nat) (keys : List EventCode) (tv : TimeVal) :
    Nat → Nat → Nat → List Action × RunExit
  | 0, _, _ => ([], RunExit.spin)
  | fuel + 1, i, j =>
    if runAt i then
      let interval := intervalAt j
      if keys.isEmpty then
        let rest := cycleOuter dev runAt intervalAt keys tv fuel (i + 1) (j + 1)
        (Action.sleep interval :: rest.1, rest.2)
      else
        let inner := cycleInner dev runAt tv interval keys (i + 1)
        match inner.2.2 with
        | InnerExit.err e => (inner.1, RunExit.err e)
        | _ =>
          let rest := cycleOuter dev runAt intervalAt keys tv fuel inner.2.1 (j + 1)
          (inner.1 ++ rest.1, rest.2)
    else ([], RunExit.ok)

/-- Embedding of `simulate_keys` (simulator.rs:163-247): create the device
with retry, emit one initial sync, then dispatch on the snapshot behavior
mode.  `selected_keys` and `key_behavior` are the values snapshotted under
lock at simulator.rs:175-179; `setupAttempts i` is the result of the i-th
`setup_device` call.  The `modifier_behavior` argument is carried but never
consulted, as in the source. -/
def simulate_keys (setupAttempts : Nat → Except SimulatorError Device)
    (dev : InputEvent → Nat → Option String)
    (runAt : Nat → Bool) (intervalAt : Nat → Nat)
    (selected_keys : List EventCode) (key_behavior : KeyBehaviorMode)
    (modifier_behavior : ModifierBehaviorMode) (hold_behavior : HoldBehaviorMode)
    (fuel : Nat) : List Action × RunExit :=
  match (setup_device_with_retry setupAttempts).1 with
  | Except.error e => ([], RunExit.err (some e))
  | Except.ok _ =>
    let timeval : TimeVal := ⟨0, 0⟩
    match (write_event_with_retry (dev (syncEvent timeval))).1 with
    | Except.error e => ([], RunExit.err e)
    | Except.ok _ =>
      match key_behavior with
      | KeyBehaviorMode.Hold =>
        let sub :=
          match hold_behavior with
          | HoldBehaviorMode.Continuous =>
            continuousMode dev runAt selected_keys timeval fuel
          | HoldBehaviorMode.Cycle =>
            cycleOuter dev runAt intervalAt selected_keys timeval fuel 0 0
        (Action.ev (syncEvent timeval)
          :: Action.sleep SIMULATION_HOLD_DELAY_MS :: sub.1, sub.2)
      | KeyBehaviorMode.Click =>
        let sub := clickLoop dev runAt selected_keys timeval fuel 0
        (Action.ev (syncEvent timeval) :: sub.1, sub.2)

/-- A press action for key code `kc` (an `EV_KEY` down event). -/
def pressA (tv : TimeVal) (kc : Nat) : Action :=
  Action.ev ⟨tv, EventCode.EV_KEY kc, 1⟩

/-- A release action for key code `kc` (an `EV_KEY` up event). -/
def releaseA (tv : TimeVal) (kc : Nat) : Action :=
  Action.ev ⟨tv, EventCode.EV_KEY kc, 0⟩

/-- Does the action write the given code with the given value at `tv`? -/
def isWriteOf (tv : TimeVal) (code : EventCode) (v : Int) : Action → Bool :=
  fun a => decide (a = Action.ev ⟨tv, code, v⟩)

/-- Every key-down in the trace is followed, three actions later, by the
matching key-up (the press/sync/sleep/release shape of one Cycle-mode key
visit). -/
def PressPaired (tv : TimeVal) (tr : List Action) : Prop :=
  ∀ p kc, tr[p]? = some (pressA tv kc) → tr[p + 3]? = some (releaseA tv kc)

/-- Modelled from the words of claim C1 / spec Scenario 1, NOT from the
source: the Click-mode cycle trace as the claim states it (a single
synchronization event per half-cycle, after the releases). -/
def clickCycleSpec (a b : EventCode) (tv : TimeVal) : List Action :=
  [Action.ev ⟨tv, CONFIRM_KEY, 1⟩, Action.ev ⟨tv, a, 0⟩, Action.ev ⟨tv, b, 0⟩,
   Action.ev (syncEvent tv), Action.sleep 1000,
   Action.ev ⟨tv, CONFIRM_KEY, 1⟩, Action.ev ⟨tv, a, 0⟩, Action.ev ⟨tv, b, 0⟩,
   Action.ev (syncEvent tv), Action.sleep 1000, Action.sleep 5000]

/-- A device oracle whose raw writes fail exactly on key-up events for key
code 30 (used to exhibit a run where a pressed key is never released). -/
def devFailRelease : InputEvent → Nat → Option String :=
  fun e _ =>
    if e.code = EventCode.EV_KEY 30 ∧ e.value = 0 then some "boom" else none

/-! ### Lemmas about the retry harness -/

theorem retryAux_ok {E T : Type} (op : Nat → Except E T) (delayMs : Nat) :
    ∀ (i attempt remaining : Nat) (lastError : Option E) (v : T),
      i < remaining →
      (∀ j, j < i → ∃ e, op (attempt + j) = Except.error e) →
      op (attempt + i) = Except.ok v →
      retryAux op delayMs attempt remaining lastError =
        (Except.ok v, (List.range i).map (fun t => attempt + t + 1),
         List.replicate i delayMs) := by
  intro i
  induction i with
  | zero =>
    intro attempt remaining lastError v hlt _ hok
    cases remaining with
    | zero => omega
    | succ r =>
      rw [Nat.add_zero] at hok
      simp [retryAux, hok]
  | succ i ih =>
    intro attempt remaining lastError v hlt hf hok
    cases remaining with
    | zero => omega
    | succ r =>
      obtain ⟨e0, he0⟩ := hf 0 (Nat.succ_pos i)
      rw [Nat.add_zero] at he0
      have hr0 : ¬ r = 0 := by omega
      have hf2 : ∀ j, j < i → ∃ e, op (attempt + 1 + j) = Except.error e := by
        intro j hj
        obtain ⟨e, he⟩ := hf (j + 1) (by omega)
        exact ⟨e, by rwa [show attempt + (j + 1) = attempt + 1 + j by omega] at he⟩
      have hok2 : op (attempt + 1 + i) = Except.ok v := by
        rwa [show attempt + (i + 1) = attempt + 1 + i by omega] at hok
      have hrec := ih (attempt + 1) r (some e0) v (by omega) hf2 hok2
      have hlist : (List.range (i + 1)).map (fun t => attempt + t + 1)
          = (attempt + 1) :: (List.range i).map (fun t => attempt + 1 + t + 1) := by
        rw [List.range_succ_eq_map, List.map_cons, List.map_map]
        congr 1
        apply List.map_congr_left
        intro t _
        simp only [Function.comp]
        omega
      simp only [retryAux, he0, hrec, if_neg hr0]
      rw [hlist, List.replicate_succ]

theorem retryAux_allfail {E T : Type} (op : Nat → Except E T) (delayMs : Nat) :
    ∀ (remaining attempt : Nat) (lastError : Option E) (elast : E),
      1 ≤ remaining →
      (∀ j, j < remaining → ∃ e, op (attempt + j) = Except.error e) →
      op (attempt + remaining - 1) = Except.error elast →
      retryAux op delayMs attempt remaining lastError =
        (Except.error (some elast),
         (List.range (remaining - 1)).map (fun t => attempt + t + 1),
         List.replicate (remaining - 1) delayMs) := by
  intro remaining
  induction remaining with
  | zero => intro attempt lastError elast h1; omega
  | succ r ih =>
    intro attempt lastError elast _ hf hlast
    cases Nat.eq_zero_or_pos r with
    | inl hr0 =>
      subst hr0
      rw [show attempt + 1 - 1 = attempt by omega] at hlast
      simp [retryAux, hlast]
    | inr hrpos =>
      obtain ⟨e0, he0⟩ := hf 0 (Nat.succ_pos r)
      rw [Nat.add_zero] at he0
      have hf2 : ∀ j, j < r → ∃ e, op (attempt + 1 + j) = Except.error e := by
        intro j hj
        obtain ⟨e, he⟩ := hf (j + 1) (by omega)
        exact ⟨e, by rwa [show attempt + (j + 1) = attempt + 1 + j by omega] at he⟩
      have hlast2 : op (attempt + 1 + r - 1) = Except.error elast := by
        rwa [show attempt + (r + 1) - 1 = attempt + 1 + r - 1 by omega] at hlast
      have hrec := ih (attempt + 1) (some e0) elast hrpos hf2 hlast2
      have hr0 : ¬ r = 0 := by omega
      simp only [retryAux, he0, hrec, if_neg hr0]
      obtain ⟨s, rfl⟩ : ∃ s, r = s + 1 := ⟨r - 1, by omega⟩
      have hlist : (List.range (s + 1 + 1 - 1)).map (fun t => attempt + t + 1)
          = (attempt + 1) :: (List.range (s + 1 - 1)).map (fun t => attempt + 1 + t + 1) := by
        rw [show s + 1 + 1 - 1 = s + 1 by omega, show s + 1 - 1 = s by omega,
          List.range_succ_eq_map, List.map_cons, List.map_map]
        congr 1
        apply List.map_congr_left
        intro t _
        simp only [Function.comp]
        omega
      rw [hlist, show s + 1 + 1 - 1 = s + 1 by omega, show s + 1 - 1 = s by omega,
        List.replicate_succ]

/-! ### Lemmas about the event emitter -/

theorem wke_all_ok (dev : InputEvent → Nat → Option String)
    (keys : List EventCode) (value : Int) (tv : TimeVal)
    (hks : ∀ k ∈ keys,
      (write_event_with_retry (dev ⟨tv, k, value⟩)).1 = Except.ok ())
    (hsync : (write_event_with_retry (dev (syncEvent tv))).1 = Except.ok ()) :
    write_key_events dev keys value tv =
      ((keys.map (fun k => (⟨tv, k, value⟩ : InputEvent))) ++ [syncEvent tv],
       Except.ok ()) := by
  induction keys with
  | nil => simp [write_key_events, hsync]
  | cons k rest ih =>
    have hk := hks k (List.mem_cons_self k rest)
    have hrest := ih (fun k2 hk2 => hks k2 (List.mem_cons_of_mem k hk2))
    simp [write_key_events, hk, hrest]

theorem wke_devOK (keys : List EventCode) (value : Int) (tv : TimeVal) :
    write_key_events devOK keys value tv =
      ((keys.map (fun k => (⟨tv, k, value⟩ : InputEvent))) ++ [syncEvent tv],
       Except.ok ()) :=
  wke_all_ok devOK keys value tv (fun _ _ => rfl) rfl

theorem wke_ok_trace (dev : InputEvent → Nat → Option String)
    (keys : List EventCode) (value : Int) (tv : TimeVal)
    (h : (write_key_events dev keys value tv).2 = Except.ok ()) :
    (write_key_events dev keys value tv).1 =
      (keys.map (fun k => (⟨tv, k, value⟩ : InputEvent))) ++ [syncEvent tv] := by
  induction keys with
  | nil =>
    rcases hs : (write_event_with_retry (dev (syncEvent tv))).1 with e | u
    · simp [write_key_events, hs] at h
    · simp [write_key_events, hs]
  | cons k rest ih =>
    rcases hk : (write_event_with_retry (dev ⟨tv, k, value⟩)).1 with e | u
    · simp [write_key_events, hk] at h
    · simp only [write_key_events, hk] at h ⊢
      simp at h ⊢
      exact ih h

theorem wke_mem (dev : InputEvent → Nat → Option String)
    (keys : List EventCode) (value : Int) (tv : TimeVal) :
    ∀ a ∈ (write_key_events dev keys value tv).1,
      a = syncEvent tv ∨ (a.time = tv ∧ a.value = value ∧ a.code ∈ keys) := by
  induction keys with
  | nil =>
    intro a ha
    rcases hs : (write_event_with_retry (dev (syncEvent tv))).1 with e | u <;>
      simp [write_key_events, hs] at ha
    exact Or.inl ha
  | cons k rest ih =>
    intro a ha
    rcases hk : (write_event_with_retry (dev ⟨tv, k, value⟩)).1 with e | u <;>
      simp only [write_key_events, hk] at ha
    · simp at ha
    · simp at ha
      rcases ha with rfl | ha
      · exact Or.inr ⟨rfl, rfl, List.mem_cons_self k rest⟩
      · rcases ih a ha with h | ⟨h1, h2, h3⟩
        · exact Or.inl h
        · exact Or.inr ⟨h1, h2, List.mem_cons_of_mem k h3⟩

theorem wke_fail_at (dev : InputEvent → Nat → Option String)
    (value : Int) (tv : TimeVal) :
    ∀ (keys : List EventCode) (n : Nat) (k : EventCode) (e : Option SimulatorError),
      keys[n]? = some k →
      (∀ m k2, m < n → keys[m]? = some k2 →
        (write_event_with_retry (dev ⟨tv, k2, value⟩)).1 = Except.ok ()) →
      (write_event_with_retry (dev ⟨tv, k, value⟩)).1 = Except.error e →
      write_key_events dev keys value tv =
        ((keys.take n).map (fun k2 => (⟨tv, k2, value⟩ : InputEvent)),
         Except.error e) := by
  intro keys
  induction keys with
  | nil => intro n k e hn; simp at hn
  | cons k0 rest ih =>
    intro n k e hn hprior hfail
    cases n with
    | zero =>
      simp at hn
      subst hn
      simp [write_key_events, hfail]
    | succ n =>
      simp at hn
      have h0 : (write_event_with_retry (dev ⟨tv, k0, value⟩)).1 = Except.ok () :=
        hprior 0 k0 (Nat.succ_pos n) (by simp)
      have hprior2 : ∀ m k2, m < n → rest[m]? = some k2 →
          (write_event_with_retry (dev ⟨tv, k2, value⟩)).1 = Except.ok () := by
        intro m k2 hm hk2
        exact hprior (m + 1) k2 (by omega) (by simpa using hk2)
      have hrec := ih n k e hn hprior2 hfail
      simp [write_key_events, h0, hrec]

theorem wke_sync_fail (dev : InputEvent → Nat → Option String)
    (keys : List EventCode) (value : Int) (tv : TimeVal)
    (e : Option SimulatorError)
    (hks : ∀ k ∈ keys,
      (write_event_with_retry (dev ⟨tv, k, value⟩)).1 = Except.ok ())
    (hsync : (write_event_with_retry (dev (syncEvent tv))).1 = Except.error e) :
    write_key_events dev keys value tv =
      (keys.map (fun k => (⟨tv, k, value⟩ : InputEvent)), Except.error e) := by
  induction keys with
  | nil => simp [write_key_events, hsync]
  | cons k rest ih =>
    have hk := hks k (List.mem_cons_self k rest)
    have hrest := ih (fun k2 hk2 => hks k2 (List.mem_cons_of_mem k hk2))
    simp [write_key_events, hk, hrest]

/-! ### Lemmas about the loop traces -/

theorem contLoop_mem (dev : InputEvent → Nat → Option String)
    (runAt : Nat → Bool) (tv : TimeVal) :
    ∀ (fuel i : Nat), ∀ a ∈ (continuousLoop dev runAt tv fuel i).1,
      a = Action.ev (syncEvent tv) := by
  intro fuel
  induction fuel with
  | zero => intro i a ha; simp [continuousLoop] at ha
  | succ fuel ih =>
    intro i a ha
    by_cases hr : runAt i
    · rcases hwk : write_key_events dev [] 0 tv with ⟨tr, res⟩
      have htr : ∀ b ∈ tr, b = syncEvent tv := by
        intro b hb
        have := wke_mem dev [] 0 tv b (by rw [hwk]; exact hb)
        simpa using this
      simp only [continuousLoop, if_pos hr, hwk] at ha
      cases res with
      | error e =>
        simp at ha
        obtain ⟨b, hb, rfl⟩ := ha
        rw [htr b hb]
      | ok u =>
        simp at ha
        rcases ha with ⟨b, hb, rfl⟩ | ha
        · rw [htr b hb]
        · exact ih (i + 1) a ha
    · simp [continuousLoop, if_neg hr] at ha

theorem clickBody_devOK (keys : List EventCode) (tv : TimeVal) :
    clickBody devOK keys tv =
      (Action.ev ⟨tv, CONFIRM_KEY, 1⟩ :: Action.ev (syncEvent tv) ::
        (keys.map (fun k => Action.ev ⟨tv, k, 0⟩)
          ++ Action.ev (syncEvent tv) :: Action.sleep 1000 ::
            Action.ev ⟨tv, CONFIRM_KEY, 1⟩ :: Action.ev (syncEvent tv) ::
            (keys.map (fun k => Action.ev ⟨tv, k, 0⟩)
              ++ [Action.ev (syncEvent tv), Action.sleep 1000, Action.sleep 5000])),
       Except.ok ()) := by
  simp [clickBody, wke_devOK, Function.comp_def]

/-! ### Position lemmas -/

theorem lt_of_getElem?_drop_ne {α : Type} (l : List α) (p c : Nat) (x : α)
    (h : l[p]? = some x) (hd : ∀ a ∈ l.drop c, a ≠ x) : p < c := by
  by_contra hpc
  have hc : c ≤ p := Nat.le_of_not_lt hpc
  have h2 : (l.drop c)[p - c]? = some x := by
    rw [List.getElem?_drop]
    rwa [Nat.add_sub_cancel' hc]
  exact hd x (List.getElem?_mem h2) rfl

theorem le_of_getElem?_take_ne {α : Type} (l : List α) (q c : Nat) (x : α)
    (h : l[q]? = some x) (ht : ∀ a ∈ l.take c, a ≠ x) : c ≤ q := by
  by_contra hqc
  have hq : q < c := Nat.lt_of_not_le hqc
  have h2 : (l.take c)[q]? = some x := by
    rw [List.getElem?_take_of_lt hq]
    exact h
  exact ht x (List.getElem?_mem h2) rfl

/-! ### Press/release pairing in Cycle mode -/

theorem pp_nil (tv : TimeVal) : PressPaired tv [] := by
  intro p kc hp
  simp at hp

theorem pp_sleep (tv : TimeVal) (ms : Nat) : PressPaired tv [Action.sleep ms] := by
  intro p kc hp
  cases p with
  | zero => simp [pressA] at hp
  | succ p => simp at hp

theorem pp_append (tv : TimeVal) (l1 l2 : List Action)
    (h1 : PressPaired tv l1) (h2 : PressPaired tv l2) :
    PressPaired tv (l1 ++ l2) := by
  intro p kc hp
  by_cases hl : p < l1.length
  · rw [List.getElem?_append_left hl] at hp
    have hr := h1 p kc hp
    have hlen : p + 3 < l1.length := (List.getElem?_eq_some.mp hr).1
    rw [List.getElem?_append_left hlen]
    exact hr
  · have hge : l1.length ≤ p := Nat.le_of_not_lt hl
    rw [List.getElem?_append_right hge] at hp
    have hr := h2 (p - l1.length) kc hp
    have hge3 : l1.length ≤ p + 3 := by omega
    rw [List.getElem?_append_right hge3,
      show p + 3 - l1.length = p - l1.length + 3 by omega]
    exact hr

theorem pp_block (tv : TimeVal) (k : EventCode) (ivl : Nat) :
    PressPaired tv
      [Action.ev ⟨tv, k, 1⟩, Action.ev (syncEvent tv), Action.sleep ivl,
       Action.ev ⟨tv, k, 0⟩, Action.ev (syncEvent tv)] := by
  intro p kc hp
  match p with
  | 0 =>
    simp [pressA] at hp
    simp [releaseA, hp]
  | 1 => simp [pressA, syncEvent] at hp
  | 2 => simp [pressA] at hp
  | 3 => simp [pressA] at hp
  | 4 => simp [pressA, syncEvent] at hp
  | n + 5 => simp at hp

theorem cycleInner_paired (dev : InputEvent → Nat → Option String)
    (runAt : Nat → Bool) (tv : TimeVal) (interval : Nat) :
    ∀ (keys : List EventCode) (i : Nat),
      InnerExit.isErr (cycleInner dev runAt tv interval keys i).2.2 = false →
      PressPaired tv (cycleInner dev runAt tv interval keys i).1 := by
  intro keys
  induction keys with
  | nil =>
    intro i _
    simpa [cycleInner] using pp_nil tv
  | cons k rest ih =>
    intro i hx
    by_cases hr : runAt i
    · rcases hp2 : (write_key_events dev [k] 1 tv).2 with e | u
      · simp [cycleInner, if_pos hr, hp2, InnerExit.isErr] at hx
      · rcases hr2 : (write_key_events dev [k] 0 tv).2 with e | u
        · simp [cycleInner, if_pos hr, hp2, hr2, InnerExit.isErr] at hx
        · have hps := wke_ok_trace dev [k] 1 tv hp2
          have hrs := wke_ok_trace dev [k] 0 tv hr2
          simp only [cycleInner, if_pos hr, hp2, hr2] at hx ⊢
          rw [hps, hrs]
          have hblock : (([k].map (fun k2 => (⟨tv, k2, (1 : Int)⟩ : InputEvent))
                ++ [syncEvent tv]).map Action.ev)
              ++ Action.sleep interval ::
                ((([k].map (fun k2 => (⟨tv, k2, (0 : Int)⟩ : InputEvent))
                  ++ [syncEvent tv]).map Action.ev)
                ++ (cycleInner dev runAt tv interval rest (i + 1)).1)
              = [Action.ev ⟨tv, k, 1⟩, Action.ev (syncEvent tv), Action.sleep interval,
                 Action.ev ⟨tv, k, 0⟩, Action.ev (syncEvent tv)]
                ++ (cycleInner dev runAt tv interval rest (i + 1)).1 := by
            simp
          rw [hblock]
          exact pp_append tv _ _ (pp_block tv k interval) (ih (i + 1) hx)
    · intro p kc hp
      simp [cycleInner, if_neg hr] at hp

theorem cycleOuter_paired (dev : InputEvent → Nat → Option String)
    (runAt : Nat → Bool) (intervalAt : Nat → Nat) (keys : List EventCode)
    (tv : TimeVal) :
    ∀ (fuel i j : Nat),
      RunExit.isErr (cycleOuter dev runAt intervalAt keys tv fuel i j).2 = false →
      PressPaired tv (cycleOuter dev runAt intervalAt keys tv fuel i j).1 := by
  intro fuel
  induction fuel with
  | zero =>
    intro i j _
    simpa [cycleOuter] using pp_nil tv
  | succ fuel ih =>
    intro i j hx
    by_cases hr : runAt i
    · by_cases hke : keys = []
      · subst hke
        simp only [cycleOuter, if_pos hr, List.isEmpty_nil, if_true] at hx ⊢
        have hsplit : Action.sleep (intervalAt j)
              :: (cycleOuter dev runAt intervalAt [] tv fuel (i + 1) (j + 1)).1
            = [Action.sleep (intervalAt j)]
              ++ (cycleOuter dev runAt intervalAt [] tv fuel (i + 1) (j + 1)).1 := by
          simp
        rw [hsplit]
        exact pp_append tv _ _ (pp_sleep tv (intervalAt j)) (ih (i + 1) (j + 1) hx)
      · have hkeb : keys.isEmpty = false := by
          cases keys with
          | nil => exact absurd rfl hke
          | cons a l => rfl
        rcases hin : (cycleInner dev runAt tv (intervalAt j) keys (i + 1)).2.2 with u | u | e
        · simp only [cycleOuter, if_pos hr, hkeb, Bool.false_eq_true, if_false, hin] at hx ⊢
          exact pp_append tv _ _
            (cycleInner_paired dev runAt tv (intervalAt j) keys (i + 1)
              (by rw [hin]; rfl))
            (ih _ (j + 1) hx)
        · simp only [cycleOuter, if_pos hr, hkeb, Bool.false_eq_true, if_false, hin] at hx ⊢
          exact pp_append tv _ _
            (cycleInner_paired dev runAt tv (intervalAt j) keys (i + 1)
              (by rw [hin]; rfl))
            (ih _ (j + 1) hx)
        · simp [cycleOuter, if_pos hr, hkeb, hin, RunExit.isErr] at hx
    · intro p kc hp
      simp [cycleOuter, if_neg hr] at hp

theorem init_fold (r2d : String → Option Nat) (k2e : Nat → Option Nat) :
    ∀ (raws : List String) (acc : List EventCode),
      raws.foldl (fun acc raw =>
        match r2d raw with
        | some device_key =>
          match k2e device_key with
          | some ev_key => acc ++ [EventCode.EV_KEY ev_key]
          | none => acc
        | none => acc) acc
      = acc ++ raws.filterMap (fun raw => ((r2d raw).bind k2e).map EventCode.EV_KEY) := by
  intro raws
  induction raws with
  | nil => intro acc; simp
  | cons raw rest ih =>
    intro acc
    rcases h1 : r2d raw with _ | dk
    · simp [h1, ih]
    · rcases h2 : k2e dk with _ | ek
      · simp [h1, h2, ih]
      · simp [h1, h2, ih]

/-! ### Claim theorems -/

/-- C4: the retry harness returns the first success, or the last observed
failure when all attempts fail; the observer-call list (second component)
has one entry per failed non-final attempt and none for the final failure;
the sleep list (third component) has one entry per failed non-final attempt
and none after the final attempt.  Instantiating the first conjunct at
`i = 0` gives first-attempt success with no sleep and no observer call; at
`i = maxRetries - 1` it gives the fails-N-1-times-then-succeeds boundary
with exactly N-1 observer calls. -/
theorem retry_contract {E T : Type} (op : Nat → Except E T)
    (maxRetries delayMs : Nat) (hN : 1 ≤ maxRetries) :
    (∀ i v, i < maxRetries →
      (∀ j, j < i → ∃ e, op j = Except.error e) →
      op i = Except.ok v →
      retry op maxRetries delayMs =
        (Except.ok v, (List.range i).map (fun t => t + 1),
         List.replicate i delayMs))
    ∧ (∀ elast, (∀ j, j < maxRetries → ∃ e, op j = Except.error e) →
      op (maxRetries - 1) = Except.error elast →
      retry op maxRetries delayMs =
        (Except.error (some elast),
         (List.range (maxRetries - 1)).map (fun t => t + 1),
         List.replicate (maxRetries - 1) delayMs)) := by
  constructor
  · intro i v hi hf hok
    have h := retryAux_ok op delayMs i 0 maxRetries none v hi
      (by simpa using hf) (by simpa using hok)
    rw [retry, h]
    simp
  · intro elast hf hlast
    have h := retryAux_allfail op delayMs maxRetries 0 none elast hN
      (by simpa using hf) (by simpa using hlast)
    rw [retry, h]
    simp

/-- Witness for C4: an operation failing exactly twice then succeeding,
under max attempts 3, returns the success with observer calls [1, 2] and
two sleeps; an operation failing always returns the last error with the
same observer/sleep counts. -/
theorem retry_contract_witness :
    retry (fun j => if j < 2 then Except.error "e" else Except.ok 7) 3 50 =
      (Except.ok 7, [1, 2], [50, 50])
    ∧ retry (fun j => (Except.error ("f" ++ toString j) : Except String Nat)) 3 50 =
      (Except.error (some "f2"), [1, 2], [50, 50]) := by
  constructor
  · have h := (retry_contract (fun j => if j < 2 then Except.error "e" else Except.ok 7)
      3 50 (by decide)).1 2 7 (by decide)
      (fun j hj => ⟨"e", if_pos hj⟩) (by decide)
    rw [h]
    decide
  · have h := (retry_contract (fun j => (Except.error ("f" ++ toString j) : Except String Nat))
      3 50 (by decide)).2 "f2"
      (fun j _ => ⟨"f" ++ toString j, rfl⟩) (by decide)
    rw [h]
    decide

/-- C7: `setup_device_with_retry`, when every attempt fails, returns a
Device-Initialization error whose message carries the maximum attempt count
3; when some attempt succeeds (after any number of failures) it returns the
created device handle unchanged. -/
theorem setup_device_with_retry_contract
    (attempts : Nat → Except SimulatorError Device) :
    (∀ efun : Nat → SimulatorError,
      (∀ j, j < MAX_DEVICE_INIT_RETRIES → attempts j = Except.error (efun j)) →
      setup_device_with_retry attempts =
        (Except.error (SimulatorError.DeviceInitialization
          ("Failed after 3 retries: " ++ fmtSimError (efun 2))),
         [1, 2], [DEVICE_INIT_RETRY_DELAY_MS, DEVICE_INIT_RETRY_DELAY_MS]))
    ∧ (∀ i d, i < MAX_DEVICE_INIT_RETRIES →
      (∀ j, j < i → ∃ e, attempts j = Except.error e) →
      attempts i = Except.ok d →
      (setup_device_with_retry attempts).1 = Except.ok d) := by
  constructor
  · intro efun hf
    have hlast : attempts (0 + 3 - 1) = Except.error (efun 2) := by
      simpa using hf 2 (by decide)
    have hfail : ∀ j, j < 3 → ∃ e, attempts (0 + j) = Except.error e := by
      intro j hj
      exact ⟨efun j, by simpa using hf j (by simpa [MAX_DEVICE_INIT_RETRIES] using hj)⟩
    have hr := retryAux_allfail attempts DEVICE_INIT_RETRY_DELAY_MS 3 0 none
      (efun 2) (by omega) hfail hlast
    simp only [setup_device_with_retry, retry, MAX_DEVICE_INIT_RETRIES, hr]
    simp [fmtRetryError]
    constructor
    · exact congrArg (fun s => s ++ fmtSimError (efun 2)) (by decide)
    · decide
  · intro i d hi hfj hok
    have hr := retryAux_ok attempts DEVICE_INIT_RETRY_DELAY_MS i 0 3 none d
      (by simpa [MAX_DEVICE_INIT_RETRIES] using hi)
      (fun j hj => by simpa using hfj j hj) (by simpa using hok)
    simp [setup_device_with_retry, retry, MAX_DEVICE_INIT_RETRIES, hr]

/-- Witness for C7: an always-failing creation yields the annotated
Device-Initialization error; a first-attempt success passes the handle 5
through unchanged. -/
theorem setup_device_with_retry_contract_witness :
    setup_device_with_retry (fun _ => Except.error (SimulatorError.KeySimulation "x")) =
      (Except.error (SimulatorError.DeviceInitialization
        "Failed after 3 retries: KeySimulation(x)"),
       [1, 2], [DEVICE_INIT_RETRY_DELAY_MS, DEVICE_INIT_RETRY_DELAY_MS])
    ∧ (setup_device_with_retry (fun _ => Except.ok 5)).1 = Except.ok 5 := by
  constructor
  · have h := (setup_device_with_retry_contract
      (fun _ => Except.error (SimulatorError.KeySimulation "x"))).1
      (fun _ => SimulatorError.KeySimulation "x") (fun _ _ => rfl)
    rw [h]
    decide
  · exact (setup_device_with_retry_contract (fun _ => Except.ok 5)).2 0 5
      (by decide) (fun j hj => absurd hj (by omega)) rfl

/-- C6 (amended): in `setup_device`, a finalization failure (the
`create_from_device` call) returns a Device-Initialization error, and the
outcome depends only on the first (and only) finalization call — no
retrying; but a capability-registration failure does NOT return an error:
the `.unwrap()` on `enable` aborts (panics) instead. -/
theorem setup_device_contract :
    (∀ (en : EventCode → Bool) (createRes : Nat → Except String Device)
        (keys : List EventCode) (e : String),
      (baseline_caps ++ keys).all en = true →
      createRes 0 = Except.error e →
      setup_device (some ()) en createRes keys =
        DevOutcome.err (SimulatorError.DeviceInitialization e))
    ∧ (∀ (en : EventCode → Bool) (createRes : Nat → Except String Device)
        (keys : List EventCode),
      (baseline_caps ++ keys).all en = false →
      setup_device (some ()) en createRes keys = DevOutcome.aborted)
    ∧ (∀ (en : EventCode → Bool) (f g : Nat → Except String Device)
        (keys : List EventCode),
      f 0 = g 0 →
      setup_device (some ()) en f keys = setup_device (some ()) en g keys) := by
  refine ⟨?_, ?_, ?_⟩
  · intro en createRes keys e hall hcr
    simp [setup_device, hall, hcr]
  · intro en createRes keys hall
    simp [setup_device, hall]
  · intro en f g keys h
    simp [setup_device, h]

/-- Counterexample to C6 as stated: a capability-registration failure
(every `enable` fails, hit first on BTN_LEFT) makes `setup_device` abort
via the `.unwrap()` panic — the outcome is not a returned
Device-Initialization error. -/
theorem setup_device_counterexample :
    setup_device (some ()) (fun _ => false) (fun _ => Except.ok 0) []
      = DevOutcome.aborted
    ∧ isDeviceInitError
        (setup_device (some ()) (fun _ => false) (fun _ => Except.ok 0) [])
      = false := by
  decide

/-- Witness for the amended C6 theorem at concrete oracles. -/
theorem setup_device_contract_witness :
    setup_device (some ()) (fun _ => true) (fun _ => Except.error "io") [] =
      DevOutcome.err (SimulatorError.DeviceInitialization "io")
    ∧ setup_device (some ()) (fun c => decide (c = EventCode.EV_KEY BTN_LEFT))
        (fun _ => Except.ok 0) [] = DevOutcome.aborted
    ∧ setup_device (some ()) (fun _ => true) (fun _ => Except.ok 7) [] =
      setup_device (some ()) (fun _ => true)
        (fun n => if n = 0 then Except.ok 7 else Except.error "later") [] := by
  refine ⟨?_, ?_, ?_⟩
  · exact setup_device_contract.1 _ _ [] "io" (by decide) rfl
  · exact setup_device_contract.2.1 _ _ [] (by decide)
  · exact setup_device_contract.2.2 _ _ _ [] (by decide)

/-- C8: the key-set initializer clears the out-list and overwrites the out-
mode with the supplied behavior (so the result ignores the previous values
of both); it appends the internal code `EV_KEY ev_key` exactly for those
raw identifiers on which both mapping stages succeed, in input order,
skipping failures without error — an empty result is an ordinary value,
not an error. -/
theorem init_simulation_keys_contract (r2d : String → Option Nat)
    (k2e : Nat → Option Nat) (raws : List String) (kb : KeyBehaviorMode)
    (prevKeys : List EventCode) (prevMode : KeyBehaviorMode) :
    init_simulation_keys r2d k2e raws kb prevKeys prevMode =
      (raws.filterMap (fun raw => ((r2d raw).bind k2e).map EventCode.EV_KEY),
       kb) := by
  simp [init_simulation_keys, init_fold]

/-- C5: `write_key_events` writes one key event per code, with the given
value and timestamp, strictly in input order, ending with exactly one
synchronization event, for every key-list length including zero; an
ultimately-failing write (after retries) fails the whole batch immediately:
only the events before the failing one are delivered (`List.take n`), and
nothing after it is attempted. -/
theorem write_key_events_contract (dev : InputEvent → Nat → Option String)
    (keys : List EventCode) (value : Int) (tv : TimeVal) :
    ((∀ k ∈ keys,
        (write_event_with_retry (dev ⟨tv, k, value⟩)).1 = Except.ok ()) →
      (write_event_with_retry (dev (syncEvent tv))).1 = Except.ok () →
      write_key_events dev keys value tv =
        (keys.map (fun k => (⟨tv, k, value⟩ : InputEvent)) ++ [syncEvent tv],
         Except.ok ()))
    ∧ (∀ n k e, keys[n]? = some k →
        (∀ m k2, m < n → keys[m]? = some k2 →
          (write_event_with_retry (dev ⟨tv, k2, value⟩)).1 = Except.ok ()) →
        (write_event_with_retry (dev ⟨tv, k, value⟩)).1 = Except.error e →
        write_key_events dev keys value tv =
          ((keys.take n).map (fun k2 => (⟨tv, k2, value⟩ : InputEvent)),
           Except.error e))
    ∧ (∀ e, (∀ k ∈ keys,
          (write_event_with_retry (dev ⟨tv, k, value⟩)).1 = Except.ok ()) →
        (write_event_with_retry (dev (syncEvent tv))).1 = Except.error e →
        write_key_events dev keys value tv =
          (keys.map (fun k => (⟨tv, k, value⟩ : InputEvent)), Except.error e))
    ∧ ((∀ k ∈ keys, ∃ kc, k = EventCode.EV_KEY kc) →
        (∀ k ∈ keys,
          (write_event_with_retry (dev ⟨tv, k, value⟩)).1 = Except.ok ()) →
        (write_event_with_retry (dev (syncEvent tv))).1 = Except.ok () →
        (write_key_events dev keys value tv).1.countP
          (fun e2 => decide (e2.code = EventCode.EV_SYN SYN_REPORT)) = 1) := by
  refine ⟨?_, ?_, ?_, ?_⟩
  · exact fun h1 h2 => wke_all_ok dev keys value tv h1 h2
  · exact fun n k e hn hp hf => wke_fail_at dev value tv keys n k e hn hp hf
  · exact fun e h1 h2 => wke_sync_fail dev keys value tv e h1 h2
  · intro hkc h1 h2
    rw [wke_all_ok dev keys value tv h1 h2]
    show (keys.map (fun k => (⟨tv, k, value⟩ : InputEvent))
        ++ [syncEvent tv]).countP
      (fun e2 => decide (e2.code = EventCode.EV_SYN SYN_REPORT)) = 1
    rw [List.countP_append, List.countP_map]
    have hz : keys.countP ((fun e2 => decide (e2.code = EventCode.EV_SYN SYN_REPORT))
        ∘ (fun k => (⟨tv, k, value⟩ : InputEvent))) = 0 := by
      apply List.countP_eq_zero.mpr
      intro k hk
      obtain ⟨kc, rfl⟩ := hkc k hk
      simp
    rw [hz]
    simp [syncEvent]

/-- Witness for C5: a fully successful two-key batch delivers both key
events in order plus one trailing sync; a batch whose second key write
fails (on every retry attempt) delivers only the first key event and
returns the Key-Simulation error. -/
theorem write_key_events_contract_witness :
    write_key_events devOK [EventCode.EV_KEY 30, EventCode.EV_KEY 48] 1 ⟨0, 0⟩ =
      ([⟨⟨0, 0⟩, EventCode.EV_KEY 30, 1⟩, ⟨⟨0, 0⟩, EventCode.EV_KEY 48, 1⟩,
        syncEvent ⟨0, 0⟩], Except.ok ())
    ∧ write_key_events
        (fun e _ => if e.code = EventCode.EV_KEY 31 then some "x" else none)
        [EventCode.EV_KEY 30, EventCode.EV_KEY 31, EventCode.EV_KEY 32] 1 ⟨0, 0⟩ =
      ([⟨⟨0, 0⟩, EventCode.EV_KEY 30, 1⟩],
       Except.error (some (SimulatorError.KeySimulation "Failed event: x"))) := by
  constructor
  · have h := (write_key_events_contract devOK
      [EventCode.EV_KEY 30, EventCode.EV_KEY 48] 1 ⟨0, 0⟩).1 (fun _ _ => rfl) rfl
    rw [h]
    decide
  · have h := (write_key_events_contract
      (fun e _ => if e.code = EventCode.EV_KEY 31 then some "x" else none)
      [EventCode.EV_KEY 30, EventCode.EV_KEY 31, EventCode.EV_KEY 32] 1 ⟨0, 0⟩).2.1
      1 (EventCode.EV_KEY 31)
      (some (SimulatorError.KeySimulation "Failed event: x")) rfl
      (fun m k2 hm hk2 => by
        have hm0 : m = 0 := by omega
        subst hm0
        simp at hk2
        subst hk2
        decide)
      (by decide)
    rw [h]
    decide

/-- Counterexample to C1 as stated: with snapshot keys [A, B] (codes 30 and
48) and an error-free device, one Click cycle body does NOT produce the
claimed sequence confirm-down, A-up, B-up, sync, …: the confirm-key batch
emits its own synchronization event before the release batch, which the
claimed sequence omits. -/
theorem click_cycle_counterexample :
    (clickBody devOK [EventCode.EV_KEY 30, EventCode.EV_KEY 48] ⟨0, 0⟩).1 ≠
      clickCycleSpec (EventCode.EV_KEY 30) (EventCode.EV_KEY 48) ⟨0, 0⟩ := by
  decide

/-- C1 (amended): in Click mode with snapshot keys [a, b] and an error-free
device, each cycle taken while the running flag reads true produces exactly
confirm-down, sync, a-up, b-up, sync, a 1000 ms sleep, confirm-down, sync,
a-up, b-up, sync, a 1000 ms sleep, then a 5000 ms sleep, after which the
loop continues with the next read of the running flag (index i + 1). -/
theorem click_cycle_amended (a b : EventCode) (runAt : Nat → Bool)
    (tv : TimeVal) (fuel i : Nat) (h : runAt i = true) :
    clickLoop devOK runAt [a, b] tv (fuel + 1) i =
      ([Action.ev ⟨tv, CONFIRM_KEY, 1⟩, Action.ev (syncEvent tv),
        Action.ev ⟨tv, a, 0⟩, Action.ev ⟨tv, b, 0⟩, Action.ev (syncEvent tv),
        Action.sleep 1000,
        Action.ev ⟨tv, CONFIRM_KEY, 1⟩, Action.ev (syncEvent tv),
        Action.ev ⟨tv, a, 0⟩, Action.ev ⟨tv, b, 0⟩, Action.ev (syncEvent tv),
        Action.sleep 1000, Action.sleep 5000]
        ++ (clickLoop devOK runAt [a, b] tv fuel (i + 1)).1,
       (clickLoop devOK runAt [a, b] tv fuel (i + 1)).2) := by
  simp [clickLoop, h, clickBody_devOK]

/-- Witness for the amended C1 theorem: a concrete one-cycle run with keys
[30, 48]. -/
theorem click_cycle_amended_witness :
    clickLoop devOK (fun _ => true) [EventCode.EV_KEY 30, EventCode.EV_KEY 48]
        ⟨0, 0⟩ 1 0 =
      ([Action.ev ⟨⟨0, 0⟩, CONFIRM_KEY, 1⟩, Action.ev (syncEvent ⟨0, 0⟩),
        Action.ev ⟨⟨0, 0⟩, EventCode.EV_KEY 30, 0⟩,
        Action.ev ⟨⟨0, 0⟩, EventCode.EV_KEY 48, 0⟩, Action.ev (syncEvent ⟨0, 0⟩),
        Action.sleep 1000,
        Action.ev ⟨⟨0, 0⟩, CONFIRM_KEY, 1⟩, Action.ev (syncEvent ⟨0, 0⟩),
        Action.ev ⟨⟨0, 0⟩, EventCode.EV_KEY 30, 0⟩,
        Action.ev ⟨⟨0, 0⟩, EventCode.EV_KEY 48, 0⟩, Action.ev (syncEvent ⟨0, 0⟩),
        Action.sleep 1000, Action.sleep 5000], RunExit.spin) := by
  have h := click_cycle_amended (EventCode.EV_KEY 30) (EventCode.EV_KEY 48)
    (fun _ => true) ⟨0, 0⟩ 0 0 rfl
  exact h.trans (by decide)

theorem countP_batchmap_zero (dev : InputEvent → Nat → Option String)
    (ks : List EventCode) (v : Int) (tv : TimeVal) (c : EventCode) (w : Int)
    (hno : ∀ e ∈ (write_key_events dev ks v tv).1,
      e ≠ (⟨tv, c, w⟩ : InputEvent)) :
    ((write_key_events dev ks v tv).1.map Action.ev).countP
      (isWriteOf tv c w) = 0 := by
  rw [List.countP_map]
  apply List.countP_eq_zero.mpr
  intro e he
  simp [isWriteOf]
  exact hno e he

theorem clickBody_release_zero (dev : InputEvent → Nat → Option String)
    (keys : List EventCode) (tv : TimeVal) (h : CONFIRM_KEY ∉ keys) :
    (clickBody dev keys tv).1.countP (isWriteOf tv CONFIRM_KEY 0) = 0 := by
  have hA : ((write_key_events dev [CONFIRM_KEY] 1 tv).1.map Action.ev).countP
      (isWriteOf tv CONFIRM_KEY 0) = 0 := by
    apply countP_batchmap_zero
    intro e he
    rcases wke_mem dev [CONFIRM_KEY] 1 tv e he with hsy | ⟨_, hv, _⟩
    · subst hsy
      simp [syncEvent, CONFIRM_KEY]
    · intro hcontra
      rw [hcontra] at hv
      simp at hv
  have hB : ((write_key_events dev keys 0 tv).1.map Action.ev).countP
      (isWriteOf tv CONFIRM_KEY 0) = 0 := by
    apply countP_batchmap_zero
    intro e he
    rcases wke_mem dev keys 0 tv e he with hsy | ⟨_, _, hc⟩
    · subst hsy
      simp [syncEvent, CONFIRM_KEY]
    · intro hcontra
      rw [hcontra] at hc
      exact h hc
  rcases e1 : (write_key_events dev [CONFIRM_KEY] 1 tv).2 with er | u
  · simp [clickBody, e1, hA]
  · rcases e2 : (write_key_events dev keys 0 tv).2 with er | u
    · simp [clickBody, e1, e2, hA, hB, List.countP_append]
    · simp [clickBody, e1, e2, hA, hB, List.countP_append, List.countP_cons,
        isWriteOf]

/-- C10: in Click mode, a run whose snapshot key set excludes the fixed
confirmation key KEY_NUMERIC_0 never emits a value-0 (release) write for
that key — for any device behavior and any schedule of the running flag —
while each error-free cycle body emits the value-1 (press) write for it
exactly twice. -/
theorem click_confirm_never_released (dev : InputEvent → Nat → Option String)
    (runAt : Nat → Bool) (keys : List EventCode) (tv : TimeVal) (fuel i : Nat)
    (h : CONFIRM_KEY ∉ keys) :
    (clickLoop dev runAt keys tv fuel i).1.countP (isWriteOf tv CONFIRM_KEY 0) = 0
    ∧ (clickBody devOK keys tv).1.countP (isWriteOf tv CONFIRM_KEY 1) = 2 := by
  constructor
  · induction fuel generalizing i with
    | zero => simp [clickLoop]
    | succ fuel ih =>
      by_cases hr : runAt i
      · rcases hb : (clickBody dev keys tv).2 with er | u
        · simp [clickLoop, hr, hb, clickBody_release_zero dev keys tv h]
        · simp [clickLoop, hr, hb, List.countP_append,
            clickBody_release_zero dev keys tv h, ih]
      · simp [clickLoop, hr]
  · rw [clickBody_devOK]
    have hz : (keys.map (fun k => Action.ev (⟨tv, k, 0⟩ : InputEvent))).countP
        (isWriteOf tv CONFIRM_KEY 1) = 0 := by
      apply List.countP_eq_zero.mpr
      intro a ha
      rw [List.mem_map] at ha
      obtain ⟨k, _, rfl⟩ := ha
      simp [isWriteOf]
    have hp1 : isWriteOf tv CONFIRM_KEY 1 (Action.ev ⟨tv, CONFIRM_KEY, 1⟩) = true := by
      simp [isWriteOf]
    have hp2 : isWriteOf tv CONFIRM_KEY 1 (Action.ev (syncEvent tv)) = false := by
      simp [isWriteOf, syncEvent, CONFIRM_KEY]
    have hp3 : ∀ ms, isWriteOf tv CONFIRM_KEY 1 (Action.sleep ms) = false := by
      intro ms
      simp [isWriteOf]
    simp [List.countP_cons, List.countP_append, hz, hp1, hp2, hp3]

/-- Witness for C10 at the empty key set: no release of the confirmation
key in a one-cycle run, and two presses of it in the cycle body. -/
theorem click_confirm_never_released_witness :
    (clickLoop devOK (fun _ => true) [] ⟨0, 0⟩ 1 0).1.countP
      (isWriteOf ⟨0, 0⟩ CONFIRM_KEY 0) = 0
    ∧ (clickBody devOK [] ⟨0, 0⟩).1.countP (isWriteOf ⟨0, 0⟩ CONFIRM_KEY 1) = 2 :=
  click_confirm_never_released devOK (fun _ => true) [] ⟨0, 0⟩ 1 0 (by simp)

theorem countP_all_sync_zero (tv : TimeVal) (kc : Nat) (w : Int)
    (L : List Action) (hL : ∀ a ∈ L, a = Action.ev (syncEvent tv)) :
    L.countP (isWriteOf tv (EventCode.EV_KEY kc) w) = 0 := by
  apply List.countP_eq_zero.mpr
  intro a ha
  rw [hL a ha]
  simp [isWriteOf, syncEvent]

theorem countP_segment_eq (keys : List EventCode) (tv : TimeVal) (kc : Nat)
    (v : Int) :
    ((keys.map (fun k => (⟨tv, k, v⟩ : InputEvent)) ++ [syncEvent tv]).map
      Action.ev).countP (isWriteOf tv (EventCode.EV_KEY kc) v)
    = keys.countP (fun k => decide (k = EventCode.EV_KEY kc)) := by
  rw [List.map_append, List.countP_append, List.map_map, List.countP_map]
  have h1 : keys.countP ((isWriteOf tv (EventCode.EV_KEY kc) v) ∘
      (Action.ev ∘ fun k => (⟨tv, k, v⟩ : InputEvent)))
      = keys.countP (fun k => decide (k = EventCode.EV_KEY kc)) := by
    apply List.countP_congr
    intro k _
    show (isWriteOf tv (EventCode.EV_KEY kc) v) (Action.ev ⟨tv, k, v⟩) = true
      ↔ decide (k = EventCode.EV_KEY kc) = true
    simp [isWriteOf]
  have h2 : (([syncEvent tv]).map Action.ev).countP
      (isWriteOf tv (EventCode.EV_KEY kc) v) = 0 := by
    simp [isWriteOf, syncEvent]
  rw [h1, h2]
  omega

theorem countP_segment_ne (keys : List EventCode) (tv : TimeVal) (kc : Nat)
    (v w : Int) (hvw : ¬ v = w) :
    ((keys.map (fun k => (⟨tv, k, v⟩ : InputEvent)) ++ [syncEvent tv]).map
      Action.ev).countP (isWriteOf tv (EventCode.EV_KEY kc) w) = 0 := by
  rw [List.map_append, List.countP_append, List.map_map, List.countP_map]
  have h1 : keys.countP ((isWriteOf tv (EventCode.EV_KEY kc) w) ∘
      (Action.ev ∘ fun k => (⟨tv, k, v⟩ : InputEvent))) = 0 := by
    apply List.countP_eq_zero.mpr
    intro k _
    show ¬ (isWriteOf tv (EventCode.EV_KEY kc) w) (Action.ev ⟨tv, k, v⟩) = true
    simp [isWriteOf]
    intro _
    exact hvw
  have h2 : (([syncEvent tv]).map Action.ev).countP
      (isWriteOf tv (EventCode.EV_KEY kc) w) = 0 := by
    simp [isWriteOf, syncEvent]
  rw [h1, h2]

theorem mem_segment_shape (keys : List EventCode) (tv : TimeVal) (v : Int)
    (a : Action)
    (ha : a ∈ (keys.map (fun k => (⟨tv, k, v⟩ : InputEvent))
      ++ [syncEvent tv]).map Action.ev) :
    a = Action.ev (syncEvent tv) ∨ ∃ k, a = Action.ev ⟨tv, k, v⟩ := by
  rw [List.mem_map] at ha
  obtain ⟨e, he, rfl⟩ := ha
  rcases List.mem_append.mp he with h1 | h1
  · rw [List.mem_map] at h1
    obtain ⟨k, _, rfl⟩ := h1
    exact Or.inr ⟨k, rfl⟩
  · simp at h1
    subst h1
    exact Or.inl rfl

theorem contTrace_facts (keys : List EventCode) (tv : TimeVal) (kc : Nat)
    (L : List Action) (hL : ∀ a ∈ L, a = Action.ev (syncEvent tv)) :
    ((((keys.map (fun k => (⟨tv, k, (1 : Int)⟩ : InputEvent))
          ++ [syncEvent tv]).map Action.ev)
        ++ (L ++ ((keys.map (fun k => (⟨tv, k, (0 : Int)⟩ : InputEvent))
          ++ [syncEvent tv]).map Action.ev))).countP
        (isWriteOf tv (EventCode.EV_KEY kc) 1)
      = keys.countP (fun k => decide (k = EventCode.EV_KEY kc)))
    ∧ ((((keys.map (fun k => (⟨tv, k, (1 : Int)⟩ : InputEvent))
          ++ [syncEvent tv]).map Action.ev)
        ++ (L ++ ((keys.map (fun k => (⟨tv, k, (0 : Int)⟩ : InputEvent))
          ++ [syncEvent tv]).map Action.ev))).countP
        (isWriteOf tv (EventCode.EV_KEY kc) 0)
      = keys.countP (fun k => decide (k = EventCode.EV_KEY kc)))
    ∧ (∀ (p q : Nat),
        ((((keys.map (fun k => (⟨tv, k, (1 : Int)⟩ : InputEvent))
            ++ [syncEvent tv]).map Action.ev)
          ++ (L ++ ((keys.map (fun k => (⟨tv, k, (0 : Int)⟩ : InputEvent))
            ++ [syncEvent tv]).map Action.ev))))[p]? = some (pressA tv kc) →
        ((((keys.map (fun k => (⟨tv, k, (1 : Int)⟩ : InputEvent))
            ++ [syncEvent tv]).map Action.ev)
          ++ (L ++ ((keys.map (fun k => (⟨tv, k, (0 : Int)⟩ : InputEvent))
            ++ [syncEvent tv]).map Action.ev))))[q]? = some (releaseA tv kc) →
        p < q) := by
  refine ⟨?_, ?_, ?_⟩
  · rw [List.countP_append, List.countP_append, countP_segment_eq keys tv kc 1,
      countP_all_sync_zero tv kc 1 L hL, countP_segment_ne keys tv kc 0 1 (by norm_num)]
    omega
  · rw [List.countP_append, List.countP_append,
      countP_segment_ne keys tv kc 1 0 (by norm_num),
      countP_all_sync_zero tv kc 0 L hL, countP_segment_eq keys tv kc 0]
    omega
  · intro p q hp hq
    have hpA : p < ((keys.map (fun k => (⟨tv, k, (1 : Int)⟩ : InputEvent))
        ++ [syncEvent tv]).map Action.ev).length := by
      apply lt_of_getElem?_drop_ne _ p _ _ hp
      rw [List.drop_left]
      intro a ha
      rcases List.mem_append.mp ha with h1 | h1
      · rw [hL a h1]
        simp [pressA, syncEvent]
      · rcases mem_segment_shape keys tv 0 a h1 with h2 | ⟨k, h2⟩ <;> subst h2
        · simp [pressA, syncEvent]
        · simp [pressA]
    have hq2 : ((keys.map (fun k => (⟨tv, k, (1 : Int)⟩ : InputEvent))
        ++ [syncEvent tv]).map Action.ev).length + L.length ≤ q := by
      apply le_of_getElem?_take_ne _ q _ _ hq
      rw [List.take_append, List.take_left]
      intro a ha
      rcases List.mem_append.mp ha with h1 | h1
      · rcases mem_segment_shape keys tv 1 a h1 with h2 | ⟨k, h2⟩ <;> subst h2
        · simp [releaseA, syncEvent]
        · simp [releaseA]
      · rw [hL a h1]
        simp [releaseA, syncEvent]
    omega

/-- C2: in Continuous-hold mode, for a non-empty snapshot key set and a run
that terminates normally (`RunExit.ok`: the flag was seen false and no
write failed), the trace contains, for each key code, as many value-1
(press) writes as the key occurs in the snapshot, exactly the same number
of value-0 (release) writes, and every press write precedes every release
write of that key — so each press is released exactly once and no press
occurs after the release. -/
theorem continuous_hold_press_release (dev : InputEvent → Nat → Option String)
    (runAt : Nat → Bool) (keys : List EventCode) (tv : TimeVal)
    (fuel : Nat) (kc : Nat) (hne : keys ≠ [])
    (hok : (continuousMode dev runAt keys tv fuel).2 = RunExit.ok) :
    ((continuousMode dev runAt keys tv fuel).1.countP
        (isWriteOf tv (EventCode.EV_KEY kc) 1)
      = keys.countP (fun k => decide (k = EventCode.EV_KEY kc)))
    ∧ ((continuousMode dev runAt keys tv fuel).1.countP
        (isWriteOf tv (EventCode.EV_KEY kc) 0)
      = keys.countP (fun k => decide (k = EventCode.EV_KEY kc)))
    ∧ (∀ (p q : Nat),
        (continuousMode dev runAt keys tv fuel).1[p]? = some (pressA tv kc) →
        (continuousMode dev runAt keys tv fuel).1[q]? = some (releaseA tv kc) →
        p < q) := by
  rcases hp2 : (write_key_events dev keys 1 tv).2 with e | u
  · exfalso
    simp [continuousMode, hp2] at hok
  · rcases hl2 : (continuousLoop dev runAt tv fuel 0).2 with _ | _ | e
    · rcases hr2 : (write_key_events dev keys 0 tv).2 with e | u
      · exfalso
        simp [continuousMode, hp2, hl2, hr2] at hok
      · have hP := wke_ok_trace dev keys 1 tv hp2
        have hR := wke_ok_trace dev keys 0 tv hr2
        have hLmem := contLoop_mem dev runAt tv fuel 0
        have htr : (continuousMode dev runAt keys tv fuel).1 =
            ((keys.map (fun k => (⟨tv, k, (1 : Int)⟩ : InputEvent))
                ++ [syncEvent tv]).map Action.ev)
            ++ ((continuousLoop dev runAt tv fuel 0).1
              ++ ((keys.map (fun k => (⟨tv, k, (0 : Int)⟩ : InputEvent))
                ++ [syncEvent tv]).map Action.ev)) := by
          simp [continuousMode, hp2, hl2, hr2, hP, hR]
        rw [htr]
        exact contTrace_facts keys tv kc
          (continuousLoop dev runAt tv fuel 0).1 hLmem
    · exfalso
      simp [continuousMode, hp2, hl2] at hok
    · exfalso
      simp [continuousMode, hp2, hl2] at hok

/-- Witness for C2: a one-key run whose flag reads false at once — one
press write and one release write of key 30. -/
theorem continuous_hold_press_release_witness :
    ((continuousMode devOK (fun _ => false) [EventCode.EV_KEY 30] ⟨0, 0⟩ 1).1.countP
      (isWriteOf ⟨0, 0⟩ (EventCode.EV_KEY 30) 1) = 1)
    ∧ ((continuousMode devOK (fun _ => false) [EventCode.EV_KEY 30] ⟨0, 0⟩ 1).1.countP
      (isWriteOf ⟨0, 0⟩ (EventCode.EV_KEY 30) 0) = 1) := by
  have h := continuous_hold_press_release devOK (fun _ => false)
    [EventCode.EV_KEY 30] ⟨0, 0⟩ 1 30 (by decide) (by decide)
  constructor
  · rw [h.1]
    decide
  · rw [h.2.1]
    decide

/-- C3 (amended): in Cycle-hold mode, in any run — any snapshot key set
including the empty one, any interval schedule, any flag schedule — that
does not abort on a device-write error, every emitted press is followed
exactly three actions later (press, sync, sleep, release) by the matching
release of the same key, within the same inner-loop pass; hence the inner
cancellation check never falls between a press and its release, and a key
whose flag check read false is simply never pressed.  The error-free
proviso is forced by the counterexample: the claim as stated omits it. -/
theorem cycle_press_release_paired (dev : InputEvent → Nat → Option String)
    (runAt : Nat → Bool) (intervalAt : Nat → Nat) (keys : List EventCode)
    (tv : TimeVal) (fuel i j : Nat)
    (hx : RunExit.isErr (cycleOuter dev runAt intervalAt keys tv fuel i j).2
      = false) :
    PressPaired tv (cycleOuter dev runAt intervalAt keys tv fuel i j).1 :=
  cycleOuter_paired dev runAt intervalAt keys tv fuel i j hx

/-- Counterexample to C3 as stated: with key set [30], a positive interval
7, and a running flag that never turns false, a device whose raw writes
fail exactly on the key-up of key 30 yields a run whose trace contains the
press of key 30 (at index 0) but no release of it at all — the press is
emitted, the flag never turned false before it, and yet no matching release
follows, because the write error aborts the run between press and release. -/
theorem cycle_press_release_counterexample :
    (cycleOuter devFailRelease (fun _ => true) (fun _ => 7)
      [EventCode.EV_KEY 30] ⟨0, 0⟩ 1 0 0).1[0]? = some (pressA ⟨0, 0⟩ 30)
    ∧ releaseA ⟨0, 0⟩ 30 ∉ (cycleOuter devFailRelease (fun _ => true)
      (fun _ => 7) [EventCode.EV_KEY 30] ⟨0, 0⟩ 1 0 0).1 := by
  decide

/-- Witness for the amended C3 theorem: a concrete error-free one-pass run
with key 30 — the press at index 0 is released at index 3. -/
theorem cycle_press_release_paired_witness :
    (cycleOuter devOK (fun n => decide (n < 2)) (fun _ => 50)
      [EventCode.EV_KEY 30] ⟨0, 0⟩ 1 0 0).1[0]? = some (pressA ⟨0, 0⟩ 30)
    ∧ (cycleOuter devOK (fun n => decide (n < 2)) (fun _ => 50)
      [EventCode.EV_KEY 30] ⟨0, 0⟩ 1 0 0).1[3]? = some (releaseA ⟨0, 0⟩ 30) := by
  constructor
  · decide
  · exact cycle_press_release_paired devOK (fun n => decide (n < 2)) (fun _ => 50)
      [EventCode.EV_KEY 30] ⟨0, 0⟩ 1 0 0 (by decide) 0 30 (by decide)

/-- C9: `simulate_keys` produces the identical trace and result for any two
values of the `ModifierBehaviorMode` argument, all other inputs equal — the
loop never consults it. -/
theorem simulate_keys_ignores_modifier
    (setupAttempts : Nat → Except SimulatorError Device)
    (dev : InputEvent → Nat → Option String)
    (runAt : Nat → Bool) (intervalAt : Nat → Nat)
    (selected_keys : List EventCode) (key_behavior : KeyBehaviorMode)
    (hold_behavior : HoldBehaviorMode) (fuel : Nat)
    (m1 m2 : ModifierBehaviorMode) :
    simulate_keys setupAttempts dev runAt intervalAt selected_keys
      key_behavior m1 hold_behavior fuel =
    simulate_keys setupAttempts dev runAt intervalAt selected_keys
      key_behavior m2 hold_behavior fuel := rfl

end Simulator
